import Mathlib

/-!
Shallow embedding of the Blackhole-AODV simulation modules
(`src/Mitigation/blackhole-aodv.cc` — the trust-mitigated routing protocol —
and the unmitigated attack variant in `src/unnamed/part_000`).

Floating-point `double` scores are modelled as exact rationals (ℚ); the deltas
0.1 / 0.2 and the thresholds 0.3 / 0.6 are exact rationals in the model.
`std::map<uint32_t,double>` is modelled as an association list with the same
lookup/insert semantics; `std::set<uint32_t>` as a duplicate-free membership
list. The randomness drawn from the ns-3 `UniformRandomVariable` (values in
[0,1)) is passed in explicitly as a rational argument, and the host-stack
context (the bound IPv4 object, the resolved interface index, the destination
test and callback availability) is passed as an explicit record, so that each
C++ member function becomes a pure function on an explicit module state.
-/

namespace BlackholeAodv

abbrev NodeId := Nat
abbrev Score := ℚ

/-- `const double TRUST_THRESHOLD = 0.3;` (blackhole-aodv.cc line 17). -/
def TRUST_THRESHOLD : ℚ := 3/10

/-- `const double RECOVERY_THRESHOLD = 0.6;` (blackhole-aodv.cc line 18). -/
def RECOVERY_THRESHOLD : ℚ := 6/10

/-- Lookup in the association-list model of `std::map<uint32_t,double>`. -/
def lookupScore : List (NodeId × Score) → NodeId → Option Score
  | [], _ => none
  | (k, v) :: rest, id => if k = id then some v else lookupScore rest id

/-- Keyed store: `trustScores[id] = v` (overwrite if present, append if absent). -/
def setScore : List (NodeId × Score) → NodeId → Score → List (NodeId × Score)
  | [], id, v => [(id, v)]
  | (k, w) :: rest, id, v =>
      if k = id then (k, v) :: rest else (k, w) :: setScore rest id v

/-- Membership in the model of `std::set<uint32_t>`. -/
def memBL : List NodeId → NodeId → Bool
  | [], _ => false
  | k :: rest, id => if k = id then true else memBL rest id

/-- `blacklistedNodes.insert(nodeId)` — no duplicate if already present. -/
def insertBL (bl : List NodeId) (id : NodeId) : List NodeId :=
  if memBL bl id then bl else id :: bl

/-- `blacklistedNodes.erase(nodeId)`. -/
def eraseBL : List NodeId → NodeId → List NodeId
  | [], _ => []
  | k :: rest, id => if k = id then eraseBL rest id else k :: eraseBL rest id

/-- `std::clamp(v, lo, hi)`: `lo` if `v < lo`, `hi` if `hi < v`, else `v`. -/
def clampQ (v lo hi : ℚ) : ℚ :=
  if v < lo then lo else if hi < v then hi else v

/-- The mutable fields of the `BlackholeAodv` class that the decision and
trust logic touches (blackhole-aodvh.h lines 91-96). -/
structure ModuleState where
  trustScores : List (NodeId × Score)
  blacklistedNodes : List NodeId
  totalDroppedPackets : Nat
  totalForwardedPackets : Nat
  dropProbability : ℚ
deriving DecidableEq

/-- The constructor state of the mitigated variant: counters zero,
`dropProbability(0.05)` (blackhole-aodv.cc lines 30-38). -/
def freshState : ModuleState :=
  { trustScores := []
    blacklistedNodes := []
    totalDroppedPackets := 0
    totalForwardedPackets := 0
    dropProbability := 5/100 }

/-- `BlackholeAodv::GetTrustScore` (blackhole-aodv.cc lines 230-233):
stored score, or the default 1.0 when unknown. -/
def GetTrustScore (st : ModuleState) (nodeId : NodeId) : Score :=
  (lookupScore st.trustScores nodeId).getD 1

/-- The blacklist re-evaluation at the end of `UpdateTrustScore`
(blackhole-aodv.cc lines 158-166), as a function of the post-clamp score. -/
def blacklistTransition (bl : List NodeId) (nodeId : NodeId) (s : Score) :
    List NodeId :=
  if s < TRUST_THRESHOLD then insertBL bl nodeId
  else if RECOVERY_THRESHOLD ≤ s then eraseBL bl nodeId
  else bl

/-- `BlackholeAodv::UpdateTrustScore` (blackhole-aodv.cc lines 146-167):
lazy-initialize to 1.0, apply the delta (-0.2 dropped / +0.1 forwarded),
clamp to [0,1], store, then re-evaluate blacklist membership. -/
def UpdateTrustScore (st : ModuleState) (nodeId : NodeId) (dropped : Bool) :
    ModuleState :=
  let scores0 :=
    if (lookupScore st.trustScores nodeId).isNone
    then setScore st.trustScores nodeId 1
    else st.trustScores
  let change : ℚ := if dropped then -(2/10) else 1/10
  let s := clampQ ((lookupScore scores0 nodeId).getD 1 + change) 0 1
  { st with
      trustScores := setScore scores0 nodeId s
      blacklistedNodes := blacklistTransition st.blacklistedNodes nodeId s }

/-- `BlackholeAodv::InitializeTrustScores` (blackhole-aodv.cc lines 64-69):
`trustScores[i] = 1.0` for `i = 0 .. totalNodes-1`. -/
def InitializeTrustScores (st : ModuleState) (totalNodes : Nat) : ModuleState :=
  { st with
      trustScores :=
        (List.range totalNodes).foldl (fun m i => setScore m i 1) st.trustScores }

/-- `BlackholeAodv::SetDropProbability` (blackhole-aodv.cc lines 55-62 and
part_000 lines 69-76): out-of-range writes are rejected, in-range stored. -/
def SetDropProbability (st : ModuleState) (probability : ℚ) : ModuleState :=
  if probability < 0 ∨ 1 < probability then st
  else { st with dropProbability := probability }

/-- Terminal outcome of a `RouteInput` call. `Drop` is the C++ `return false`
paths, `DeliverLocally` the `lcb` path, `Forward` the `ucb` path. -/
inductive Decision
  | Drop
  | DeliverLocally
  | Forward
deriving DecidableEq

/-- The host-stack context a `RouteInput` call sees: whether `SetIpv4` has
bound a non-null `m_ipv4`, the result of `GetInterfaceForDevice` (`none`
models the error value -1), the `IsDestinationAddress` answer, and whether
the local-deliver / unicast-forward callbacks are non-null. -/
structure HostContext where
  ipv4Bound : Bool
  interfaceIndex : Option Nat
  isDestinationAddress : Bool
  lcbAvailable : Bool
  ucbAvailable : Bool
deriving DecidableEq

/-- The tail of `BlackholeAodv::RouteInput` after the blacklist block
(blackhole-aodv.cc lines 115-143): local delivery if the destination address
matches, otherwise count the forward, reward the destination's trust, and
attempt the unicast forward. -/
def routeDeliverOrForward (st : ModuleState) (destNodeId : NodeId)
    (ctx : HostContext) : Decision × ModuleState :=
  if ctx.isDestinationAddress then
    if ctx.lcbAvailable then (Decision.DeliverLocally, st)
    else (Decision.Drop, st)
  else
    let st1 := { st with totalForwardedPackets := st.totalForwardedPackets + 1 }
    let st2 := UpdateTrustScore st1 destNodeId false
    if ctx.ucbAvailable then (Decision.Forward, st2)
    else (Decision.Drop, st2)

/-- `BlackholeAodv::RouteInput` of the mitigated variant (blackhole-aodv.cc
lines 80-144). `r` is the value drawn from `m_randomVar->GetValue()`. -/
def RouteInput (st : ModuleState) (destNodeId : NodeId) (ctx : HostContext)
    (r : ℚ) : Decision × ModuleState :=
  if ctx.ipv4Bound = false then (Decision.Drop, st)
  else
    match ctx.interfaceIndex with
    | none => (Decision.Drop, st)
    | some _ =>
      if memBL st.blacklistedNodes destNodeId then
        if r < st.dropProbability then
          let st1 :=
            { st with totalDroppedPackets := st.totalDroppedPackets + 1 }
          (Decision.Drop, UpdateTrustScore st1 destNodeId true)
        else routeDeliverOrForward st destNodeId ctx
      else routeDeliverOrForward st destNodeId ctx

/-- The mutable fields of the unmitigated attack variant (`src/unnamed/part_000`):
no trust ledger, only counters and the drop probability. -/
structure UnmitigatedState where
  totalDroppedPackets : Nat
  totalForwardedPackets : Nat
  dropProbability : ℚ
deriving DecidableEq

/-- Constructor state of the unmitigated variant: `dropProbability(1.0)`
(part_000 lines 23-32). -/
def unmitigatedFresh : UnmitigatedState :=
  { totalDroppedPackets := 0, totalForwardedPackets := 0, dropProbability := 1 }

/-- `BlackholeAodv::RouteInput` of the unmitigated variant (part_000 lines
42-66): drop iff `randomValue <= dropProbability`, otherwise forward. -/
def RouteInputUnmitigated (st : UnmitigatedState) (r : ℚ) :
    Decision × UnmitigatedState :=
  if r ≤ st.dropProbability then
    (Decision.Drop,
      { st with totalDroppedPackets := st.totalDroppedPackets + 1 })
  else
    (Decision.Forward,
      { st with totalForwardedPackets := st.totalForwardedPackets + 1 })

/-- One line of the trust-score CSV written by `LogTrustScores`. -/
inductive LogLine
  | header
  | scoreRow (time : ℚ) (nodeId : NodeId) (score : Score)
  | blacklistRow (time : ℚ) (nodeId : NodeId)
deriving DecidableEq

/-- Process-wide telemetry state: the function-local `static bool
headerWritten` of `LogTrustScores` (shared by every module instance in the
process) and the contents of the append-only log file. -/
structure TelemetryState where
  headerWritten : Bool
  log : List LogLine
deriving DecidableEq

/-- Process start: the static flag is false, the log is empty. -/
def telemetryInit : TelemetryState := { headerWritten := false, log := [] }

/-- One invocation of `LogTrustScores` on some module instance: whether the
`std::ofstream` open succeeded, the simulation time, and the invoked
instance's ledger snapshot. -/
structure ExportCall where
  openOk : Bool
  time : ℚ
  scores : List (NodeId × Score)
  blacklisted : List NodeId
deriving DecidableEq

/-- `BlackholeAodv::LogTrustScores` (blackhole-aodv.cc lines 170-193) as a
transition on the process-wide telemetry state: a failed open returns
early; otherwise the header is appended when the static flag is still
false, then one row per tracked node and one per blacklisted node. -/
def LogTrustScores (ps : TelemetryState) (c : ExportCall) : TelemetryState :=
  if c.openOk = false then ps
  else
    let headerLines : List LogLine :=
      if ps.headerWritten = false then [LogLine.header] else []
    { headerWritten := true
      log := ps.log ++ headerLines
        ++ c.scores.map (fun e => LogLine.scoreRow c.time e.1 e.2)
        ++ c.blacklisted.map (fun n => LogLine.blacklistRow c.time n) }

/-- Count the header lines in a log. -/
def countHeaders (log : List LogLine) : Nat :=
  (log.filter (fun l => l = LogLine.header)).length

/-- Apply a list of `(nodeId, dropped)` update calls in order. -/
def applyUpdates (st : ModuleState) (ops : List (NodeId × Bool)) : ModuleState :=
  ops.foldl (fun s op => UpdateTrustScore s op.1 op.2) st

/-- All trust scores currently stored in the ledger lie in [0,1]. -/
def ScoresInRange (st : ModuleState) : Prop :=
  ∀ n s, lookupScore st.trustScores n = some s → 0 ≤ s ∧ s ≤ 1

/-- The blacklist is sandwiched by the thresholds: every blacklisted node has
a ledger entry strictly below the recovery threshold, and every ledger entry
strictly below the trust threshold belongs to a blacklisted node. -/
def BlacklistSandwiched (st : ModuleState) : Prop :=
  (∀ n, memBL st.blacklistedNodes n = true →
      ∃ s, lookupScore st.trustScores n = some s ∧ s < RECOVERY_THRESHOLD) ∧
  (∀ n s, lookupScore st.trustScores n = some s → s < TRUST_THRESHOLD →
      memBL st.blacklistedNodes n = true)

/-- States reachable from a fresh module by at most one
`InitializeTrustScores` call followed by any sequence of `UpdateTrustScore`
calls. -/
inductive Reachable : ModuleState → Prop
  | fresh : Reachable freshState
  | init (n : Nat) : Reachable (InitializeTrustScores freshState n)
  | update (st : ModuleState) (id : NodeId) (d : Bool) :
      Reachable st → Reachable (UpdateTrustScore st id d)

/-- The post-clamp score `UpdateTrustScore st id d` stores for `id`. -/
def newScoreAfter (st : ModuleState) (id : NodeId) (d : Bool) : ℚ :=
  clampQ (GetTrustScore st id + (if d then -(2/10) else 1/10)) 0 1

/-! ### Helper lemmas -/

theorem lookup_setScore_self (m : List (NodeId × Score)) (id : NodeId)
    (v : Score) : lookupScore (setScore m id v) id = some v := by
  induction m with
  | nil => simp [setScore, lookupScore]
  | cons hd tl ih =>
    obtain ⟨k, w⟩ := hd
    by_cases h : k = id
    · simp [setScore, lookupScore, h]
    · simp [setScore, lookupScore, h, ih]

theorem lookup_setScore_ne (m : List (NodeId × Score)) (id k : NodeId)
    (v : Score) (h : k ≠ id) :
    lookupScore (setScore m id v) k = lookupScore m k := by
  induction m with
  | nil => simp [setScore, lookupScore, Ne.symm h]
  | cons hd tl ih =>
    obtain ⟨k0, w⟩ := hd
    by_cases hk : k0 = id
    · subst hk
      simp [setScore, lookupScore, Ne.symm h]
    · by_cases hkk : k0 = k
      · simp [setScore, lookupScore, hk, hkk, h]
      · simp [setScore, lookupScore, hk, hkk, ih]

theorem memBL_insertBL (bl : List NodeId) (id k : NodeId) :
    memBL (insertBL bl id) k = if k = id then true else memBL bl k := by
  unfold insertBL
  by_cases hm : memBL bl id
  · by_cases hk : k = id
    · subst hk; simp [hm]
    · simp [hm, hk]
  · by_cases hk : k = id
    · subst hk; simp [hm, memBL]
    · simp [hm, hk, memBL, Ne.symm hk]

theorem memBL_eraseBL (bl : List NodeId) (id k : NodeId) :
    memBL (eraseBL bl id) k = if k = id then false else memBL bl k := by
  induction bl with
  | nil => simp [eraseBL, memBL]
  | cons hd tl ih =>
    by_cases hh : hd = id
    · subst hh
      by_cases hk : k = hd
      · subst hk; simp [eraseBL, memBL, ih]
      · simp [eraseBL, memBL, hk, ih, Ne.symm hk]
    · by_cases hk : hd = k
      · subst hk
        simp [eraseBL, memBL, hh, ih]
      · simp [eraseBL, memBL, hh, hk, ih]

theorem clampQ_nonneg (v : ℚ) : 0 ≤ clampQ v 0 1 := by
  unfold clampQ
  split_ifs <;> linarith

theorem clampQ_le_one (v : ℚ) : clampQ v 0 1 ≤ 1 := by
  unfold clampQ
  split_ifs <;> linarith

theorem update_lookup_self (st : ModuleState) (id : NodeId) (d : Bool) :
    lookupScore (UpdateTrustScore st id d).trustScores id =
      some (newScoreAfter st id d) := by
  unfold UpdateTrustScore newScoreAfter GetTrustScore
  cases h : lookupScore st.trustScores id with
  | none => simp [h, lookup_setScore_self]
  | some v => simp [h, lookup_setScore_self]

theorem update_lookup_ne (st : ModuleState) (id k : NodeId) (d : Bool)
    (h : k ≠ id) :
    lookupScore (UpdateTrustScore st id d).trustScores k =
      lookupScore st.trustScores k := by
  unfold UpdateTrustScore
  cases hid : lookupScore st.trustScores id with
  | none => simp [hid, lookup_setScore_ne _ _ _ _ h]
  | some v => simp [hid, lookup_setScore_ne _ _ _ _ h]

theorem update_blacklist (st : ModuleState) (id : NodeId) (d : Bool) :
    (UpdateTrustScore st id d).blacklistedNodes =
      blacklistTransition st.blacklistedNodes id (newScoreAfter st id d) := by
  unfold UpdateTrustScore newScoreAfter GetTrustScore
  cases h : lookupScore st.trustScores id with
  | none => simp [h, lookup_setScore_self]
  | some v => simp [h, lookup_setScore_self]

theorem update_getScore_self (st : ModuleState) (id : NodeId) (d : Bool) :
    GetTrustScore (UpdateTrustScore st id d) id = newScoreAfter st id d := by
  unfold GetTrustScore
  rw [update_lookup_self]
  rfl

theorem trust_lt_recovery : TRUST_THRESHOLD < RECOVERY_THRESHOLD := by
  norm_num [TRUST_THRESHOLD, RECOVERY_THRESHOLD]

theorem scoresInRange_update (st : ModuleState) (id : NodeId) (d : Bool)
    (h : ScoresInRange st) : ScoresInRange (UpdateTrustScore st id d) := by
  intro n s hn
  by_cases hni : n = id
  · subst hni
    rw [update_lookup_self] at hn
    cases hn
    exact ⟨clampQ_nonneg _, clampQ_le_one _⟩
  · rw [update_lookup_ne _ _ _ _ hni] at hn
    exact h n s hn

/-! ### Claim theorems -/

/-- C1: every `UpdateTrustScore(id, outcome)` call first inserts score 1.0
when `id` has no entry, then applies exactly -0.2 for a drop and +0.1 for a
forward, then clamps to [0,1]; the stored score after the call equals
`clamp(oldScore + delta, 0, 1)` where `oldScore` is the previous entry or
the fresh 1.0. -/
theorem claim_C1_update_stored_clamp (st : ModuleState) (id : NodeId)
    (dropped : Bool) :
    lookupScore (UpdateTrustScore st id dropped).trustScores id =
      some (clampQ ((lookupScore st.trustScores id).getD 1
        + (if dropped then -(2/10) else 1/10)) 0 1) :=
  update_lookup_self st id dropped

/-- C2: blacklist membership follows two-threshold hysteresis: a node not yet
blacklisted is added exactly when its post-clamp score falls below 0.3, a
blacklisted node is removed exactly when its post-clamp score reaches 0.6,
and a blacklisted node stays blacklisted at every score in the open interval
(0.3, 0.6); concretely, the blacklist transition driven by the score
sequence 1.0, 0.2, 0.4, 0.5, 0.7 blacklists the node at 0.2, keeps it
blacklisted at 0.4 and 0.5, and removes it at 0.7. -/
theorem claim_C2_blacklist_hysteresis :
    (∀ (st : ModuleState) (id : NodeId) (d : Bool),
      (memBL st.blacklistedNodes id = false →
        (memBL (UpdateTrustScore st id d).blacklistedNodes id = true ↔
          GetTrustScore (UpdateTrustScore st id d) id < TRUST_THRESHOLD)) ∧
      (memBL st.blacklistedNodes id = true →
        (memBL (UpdateTrustScore st id d).blacklistedNodes id = false ↔
          RECOVERY_THRESHOLD ≤ GetTrustScore (UpdateTrustScore st id d) id)) ∧
      (memBL st.blacklistedNodes id = true →
        TRUST_THRESHOLD < GetTrustScore (UpdateTrustScore st id d) id →
        GetTrustScore (UpdateTrustScore st id d) id < RECOVERY_THRESHOLD →
        memBL (UpdateTrustScore st id d).blacklistedNodes id = true)) ∧
    (memBL (List.foldl (fun b s => blacklistTransition b 0 s) []
        [1, 2/10]) 0 = true ∧
     memBL (List.foldl (fun b s => blacklistTransition b 0 s) []
        [1, 2/10, 4/10]) 0 = true ∧
     memBL (List.foldl (fun b s => blacklistTransition b 0 s) []
        [1, 2/10, 4/10, 5/10]) 0 = true ∧
     memBL (List.foldl (fun b s => blacklistTransition b 0 s) []
        [1, 2/10, 4/10, 5/10, 7/10]) 0 = false) := by
  constructor
  · intro st id d
    have hb := update_blacklist st id d
    have hg := update_getScore_self st id d
    rw [hg, hb]
    have hTR := trust_lt_recovery
    refine ⟨?_, ?_, ?_⟩
    · intro h0
      unfold blacklistTransition
      split_ifs with h1 h2
      · simp [memBL_insertBL, h1]
      · simp [memBL_eraseBL, h1]
      · simp [h0, h1]
    · intro h0
      unfold blacklistTransition
      split_ifs with h1 h2
      · have hnr : ¬ RECOVERY_THRESHOLD ≤ newScoreAfter st id d := by
          intro hc; linarith
        simp [memBL_insertBL, hnr]
      · simp [memBL_eraseBL, h2]
      · simp [h0, h2]
    · intro h0 hlt hgt
      unfold blacklistTransition
      have h1 : ¬ newScoreAfter st id d < TRUST_THRESHOLD := by linarith
      have h2 : ¬ RECOVERY_THRESHOLD ≤ newScoreAfter st id d := by linarith
      simp [h1, h2, h0]
  · refine ⟨?_, ?_, ?_, ?_⟩ <;>
      norm_num [List.foldl, blacklistTransition, insertBL, eraseBL, memBL,
        TRUST_THRESHOLD, RECOVERY_THRESHOLD]

/-- Witness for C2: from a state where node 3 has score 0.4 and is not
blacklisted, one Dropped update clamps the score to 0.2 < 0.3 and the node
becomes blacklisted. -/
theorem claim_C2_witness :
    memBL (UpdateTrustScore
      { trustScores := [(3, 4/10)], blacklistedNodes := [],
        totalDroppedPackets := 0, totalForwardedPackets := 0,
        dropProbability := 1 } 3 true).blacklistedNodes 3 = true := by
  refine ((claim_C2_blacklist_hysteresis.1
    { trustScores := [(3, 4/10)], blacklistedNodes := [],
      totalDroppedPackets := 0, totalForwardedPackets := 0,
      dropProbability := 1 } 3 true).1 (by simp [memBL])).mpr ?_
  norm_num [update_getScore_self, newScoreAfter, GetTrustScore, lookupScore,
    clampQ, TRUST_THRESHOLD]

/-- C3: one update step and any sequence of update steps preserve the
invariant that every stored trust score lies in [0,1]; and five consecutive
Dropped outcomes starting from the fresh ledger leave node 0 with score
exactly 0. -/
theorem claim_C3_score_bounds :
    (∀ (st : ModuleState) (id : NodeId) (d : Bool),
        ScoresInRange st → ScoresInRange (UpdateTrustScore st id d)) ∧
    (∀ (st : ModuleState) (ops : List (NodeId × Bool)),
        ScoresInRange st → ScoresInRange (applyUpdates st ops)) ∧
    GetTrustScore (applyUpdates freshState
      [(0, true), (0, true), (0, true), (0, true), (0, true)]) 0 = 0 := by
  refine ⟨scoresInRange_update, ?_, ?_⟩
  · intro st ops h
    induction ops generalizing st with
    | nil => exact h
    | cons op rest ih =>
      exact ih (UpdateTrustScore st op.1 op.2)
        (scoresInRange_update st op.1 op.2 h)
  · norm_num [applyUpdates, List.foldl, UpdateTrustScore, GetTrustScore,
      lookupScore, setScore, clampQ, blacklistTransition, insertBL, eraseBL,
      memBL, freshState, TRUST_THRESHOLD, RECOVERY_THRESHOLD]

/-- Witness for C3: the fresh ledger is in range, hence so is the ledger
after a Dropped update of node 2. -/
theorem claim_C3_witness :
    ScoresInRange (applyUpdates freshState [(2, true)]) :=
  claim_C3_score_bounds.2.1 freshState [(2, true)]
    (fun n s h => by simp [freshState, lookupScore] at h)

theorem sandwiched_update (st : ModuleState) (id : NodeId) (d : Bool)
    (h : BlacklistSandwiched st) :
    BlacklistSandwiched (UpdateTrustScore st id d) := by
  obtain ⟨h1, h2⟩ := h
  have hbl := update_blacklist st id d
  have hTR := trust_lt_recovery
  constructor
  · intro n hn
    rw [hbl] at hn
    unfold blacklistTransition at hn
    split_ifs at hn with hs1 hs2
    · rw [memBL_insertBL] at hn
      by_cases hni : n = id
      · subst hni
        exact ⟨newScoreAfter st n d, update_lookup_self st n d, by linarith⟩
      · rw [if_neg hni] at hn
        obtain ⟨t, ht, htlt⟩ := h1 n hn
        exact ⟨t, by rw [update_lookup_ne _ _ _ _ hni]; exact ht, htlt⟩
    · rw [memBL_eraseBL] at hn
      by_cases hni : n = id
      · simp [hni] at hn
      · rw [if_neg hni] at hn
        obtain ⟨t, ht, htlt⟩ := h1 n hn
        exact ⟨t, by rw [update_lookup_ne _ _ _ _ hni]; exact ht, htlt⟩
    · by_cases hni : n = id
      · subst hni
        refine ⟨newScoreAfter st n d, update_lookup_self st n d, ?_⟩
        exact lt_of_not_le hs2
      · obtain ⟨t, ht, htlt⟩ := h1 n hn
        exact ⟨t, by rw [update_lookup_ne _ _ _ _ hni]; exact ht, htlt⟩
  · intro n t ht htlt
    rw [hbl]
    unfold blacklistTransition
    by_cases hni : n = id
    · subst hni
      rw [update_lookup_self] at ht
      cases ht
      rw [if_pos htlt, memBL_insertBL]
      simp
    · rw [update_lookup_ne _ _ _ _ hni] at ht
      have hmem := h2 n t ht htlt
      split_ifs with hs1 hs2
      · rw [memBL_insertBL, if_neg hni]; exact hmem
      · rw [memBL_eraseBL, if_neg hni]; exact hmem
      · exact hmem

theorem lookup_initFold (l : List Nat) (m : List (NodeId × Score))
    (h : ∀ n s, lookupScore m n = some s → s = 1) :
    ∀ n s, lookupScore (l.foldl (fun mm i => setScore mm i 1) m) n = some s →
      s = 1 := by
  induction l generalizing m with
  | nil => exact h
  | cons i rest ih =>
    intro n s hn
    refine ih (setScore m i 1) ?_ n s hn
    intro n0 s0 h0
    by_cases hni : n0 = i
    · subst hni
      rw [lookup_setScore_self] at h0
      cases h0
      rfl
    · rw [lookup_setScore_ne _ _ _ _ hni] at h0
      exact h n0 s0 h0

theorem sandwiched_fresh : BlacklistSandwiched freshState := by
  constructor
  · intro n hn
    simp [freshState, memBL] at hn
  · intro n s h
    simp [freshState, lookupScore] at h

theorem sandwiched_init (n : Nat) :
    BlacklistSandwiched (InitializeTrustScores freshState n) := by
  constructor
  · intro k hk
    simp [InitializeTrustScores, freshState, memBL] at hk
  · intro k s hs hlt
    have h1 : s = 1 := by
      refine lookup_initFold (List.range n) freshState.trustScores ?_ k s hs
      intro n0 s0 h0
      simp [freshState, lookupScore] at h0
    subst h1
    exact absurd hlt (by norm_num [TRUST_THRESHOLD])

/-- C10: in every state reachable from a fresh module by at most one
`InitializeTrustScores` call followed by any sequence of `UpdateTrustScore`
calls, every blacklisted node has a ledger entry with score strictly below
the recovery threshold 0.6, and every node whose stored score is strictly
below the trust threshold 0.3 is blacklisted. -/
theorem claim_C10_blacklist_sandwiched (st : ModuleState)
    (h : Reachable st) : BlacklistSandwiched st := by
  induction h with
  | fresh => exact sandwiched_fresh
  | init n => exact sandwiched_init n
  | update st0 id d _ ih => exact sandwiched_update st0 id d ih

/-- Witness for C10: the invariant at the reachable state obtained by one
Dropped update of node 5 on a fresh module. -/
theorem claim_C10_witness :
    BlacklistSandwiched (UpdateTrustScore freshState 5 true) :=
  claim_C10_blacklist_sandwiched (UpdateTrustScore freshState 5 true)
    (Reachable.update freshState 5 true Reachable.fresh)

theorem update_preserves_counters (st : ModuleState) (id : NodeId) (d : Bool) :
    (UpdateTrustScore st id d).totalDroppedPackets = st.totalDroppedPackets ∧
    (UpdateTrustScore st id d).totalForwardedPackets =
      st.totalForwardedPackets ∧
    (UpdateTrustScore st id d).dropProbability = st.dropProbability :=
  ⟨rfl, rfl, rfl⟩

/-- C4: when the destination is blacklisted and the draw satisfies
`r >= dropProbability`, the call behaves exactly like the deliver/forward
tail applied to the unchanged state (no trust update in the fall-through
branch), and if the forwarding case is then taken the destination's stored
score becomes `clamp(old + 0.1, 0, 1)` — a Forwarded reward — with the
forwarded counter incremented. -/
theorem claim_C4_fallthrough_reward (st : ModuleState) (dest : NodeId)
    (ctx : HostContext) (r : ℚ) (i : Nat)
    (hb : ctx.ipv4Bound = true) (hi : ctx.interfaceIndex = some i)
    (hbl : memBL st.blacklistedNodes dest = true)
    (hr : ¬ r < st.dropProbability) :
    RouteInput st dest ctx r = routeDeliverOrForward st dest ctx ∧
    (ctx.isDestinationAddress = false →
      GetTrustScore (RouteInput st dest ctx r).2 dest =
        clampQ (GetTrustScore st dest + 1/10) 0 1 ∧
      (RouteInput st dest ctx r).2.totalForwardedPackets =
        st.totalForwardedPackets + 1) := by
  have heq : RouteInput st dest ctx r = routeDeliverOrForward st dest ctx := by
    unfold RouteInput
    simp [hb, hi, hbl, hr]
  refine ⟨heq, ?_⟩
  intro hd
  rw [heq]
  unfold routeDeliverOrForward
  rw [hd]
  by_cases hu : ctx.ucbAvailable
  · simp only [hu, if_false, if_true, Bool.false_eq_true]
    refine ⟨?_, (update_preserves_counters _ dest false).2.1⟩
    rw [update_getScore_self]
    rfl
  · simp only [hu, if_false, Bool.false_eq_true]
    refine ⟨?_, (update_preserves_counters _ dest false).2.1⟩
    rw [update_getScore_self]
    rfl

/-- Witness for C4: destination 2 blacklisted with score 0.5, drop
probability 0, draw 0.5: the packet falls through to forwarding and the
forwarded counter becomes 1. -/
theorem claim_C4_witness :
    (RouteInput
      { trustScores := [(2, 5/10)], blacklistedNodes := [2],
        totalDroppedPackets := 0, totalForwardedPackets := 0,
        dropProbability := 0 } 2
      { ipv4Bound := true, interfaceIndex := some 0,
        isDestinationAddress := false, lcbAvailable := true,
        ucbAvailable := true } (5/10)).2.totalForwardedPackets = 1 :=
  ((claim_C4_fallthrough_reward
    { trustScores := [(2, 5/10)], blacklistedNodes := [2],
      totalDroppedPackets := 0, totalForwardedPackets := 0,
      dropProbability := 0 } 2
    { ipv4Bound := true, interfaceIndex := some 0,
      isDestinationAddress := false, lcbAvailable := true,
      ucbAvailable := true } (5/10) 0 rfl rfl (by simp [memBL])
    (by norm_num)).2 rfl).2

/-- C5: for a blacklisted destination, drop probability 1 forces the Drop
decision for every draw in [0,1); drop probability 0 means the
blacklisted-branch drop never fires and the call falls through to the
deliver/forward tail; and in general the blacklisted branch drops exactly
when `r < dropProbability`. -/
theorem claim_C5_drop_probability (st : ModuleState) (dest : NodeId)
    (ctx : HostContext) (r : ℚ)
    (hbl : memBL st.blacklistedNodes dest = true) :
    (st.dropProbability = 1 → 0 ≤ r → r < 1 →
      (RouteInput st dest ctx r).1 = Decision.Drop) ∧
    (st.dropProbability = 0 → 0 ≤ r → ctx.ipv4Bound = true →
      ∀ i, ctx.interfaceIndex = some i →
        RouteInput st dest ctx r = routeDeliverOrForward st dest ctx) ∧
    (ctx.ipv4Bound = true → ∀ i, ctx.interfaceIndex = some i →
      (r < st.dropProbability →
        RouteInput st dest ctx r = (Decision.Drop,
          UpdateTrustScore
            { st with totalDroppedPackets := st.totalDroppedPackets + 1 }
            dest true)) ∧
      (¬ r < st.dropProbability →
        RouteInput st dest ctx r = routeDeliverOrForward st dest ctx)) := by
  refine ⟨?_, ?_, ?_⟩
  · intro hp h0 h1
    unfold RouteInput
    by_cases hb : ctx.ipv4Bound = false
    · simp [hb]
    · cases hi : ctx.interfaceIndex with
      | none => simp [hb, hi]
      | some i => simp [hb, hi, hbl, hp, h1]
  · intro hp h0 hb i hi
    have hnr : ¬ r < st.dropProbability := by
      rw [hp]
      exact not_lt.mpr h0
    unfold RouteInput
    simp [hb, hi, hbl, hnr]
  · intro hb i hi
    constructor
    · intro hr
      unfold RouteInput
      simp [hb, hi, hbl, hr]
    · intro hr
      unfold RouteInput
      simp [hb, hi, hbl, hr]

/-- Witness for C5: destination 4 blacklisted and drop probability 1: the
draw 0.5 yields the Drop decision. -/
theorem claim_C5_witness :
    (RouteInput
      { trustScores := [], blacklistedNodes := [4],
        totalDroppedPackets := 0, totalForwardedPackets := 0,
        dropProbability := 1 } 4
      { ipv4Bound := true, interfaceIndex := some 0,
        isDestinationAddress := false, lcbAvailable := true,
        ucbAvailable := true } (5/10)).1 = Decision.Drop :=
  (claim_C5_drop_probability
    { trustScores := [], blacklistedNodes := [4],
      totalDroppedPackets := 0, totalForwardedPackets := 0,
      dropProbability := 1 } 4
    { ipv4Bound := true, interfaceIndex := some 0,
      isDestinationAddress := false, lcbAvailable := true,
      ucbAvailable := true } (5/10) (by simp [memBL])).1 rfl
    (by norm_num) (by norm_num)

/-- C6: with the default drop probability 1.0 on both variants and every
node blacklisted in the mitigated state, the unmitigated engine's decision
coincides with the mitigated engine's decision for every inbound packet and
every draw in [0,1), independent of the destination identity: both are
Drop. -/
theorem claim_C6_unmitigated_specialization (stU : UnmitigatedState)
    (stM : ModuleState) (dest : NodeId) (ctx : HostContext) (r : ℚ)
    (hpU : stU.dropProbability = 1) (hpM : stM.dropProbability = 1)
    (hbl : memBL stM.blacklistedNodes dest = true)
    (h0 : 0 ≤ r) (h1 : r < 1) :
    (RouteInputUnmitigated stU r).1 = (RouteInput stM dest ctx r).1 ∧
    (RouteInputUnmitigated stU r).1 = Decision.Drop := by
  have hu : (RouteInputUnmitigated stU r).1 = Decision.Drop := by
    unfold RouteInputUnmitigated
    simp [hpU, h1.le]
  have hm : (RouteInput stM dest ctx r).1 = Decision.Drop := by
    unfold RouteInput
    by_cases hb : ctx.ipv4Bound = false
    · simp [hb]
    · cases hi : ctx.interfaceIndex with
      | none => simp [hb, hi]
      | some i => simp [hb, hi, hbl, hpM, h1]
  exact ⟨hu.trans hm.symm, hu⟩

/-- Witness for C6: the fresh unmitigated module (drop probability 1.0)
drops the packet at draw 0, as does the mitigated module with node 3
blacklisted. -/
theorem claim_C6_witness :
    (RouteInputUnmitigated unmitigatedFresh 0).1 = Decision.Drop :=
  (claim_C6_unmitigated_specialization unmitigatedFresh
    { trustScores := [], blacklistedNodes := [3],
      totalDroppedPackets := 0, totalForwardedPackets := 0,
      dropProbability := 1 } 3
    { ipv4Bound := true, interfaceIndex := some 0,
      isDestinationAddress := false, lcbAvailable := true,
      ucbAvailable := true } 0 rfl rfl (by simp [memBL]) le_rfl
    (by norm_num)).2

/-- C7: when the module is not bound to an IPv4 context, or the arrival
interface cannot be resolved, the decision is Drop and the returned module
state is exactly the input state (counters, trust scores and blacklist all
unchanged). -/
theorem claim_C7_config_error_drop (st : ModuleState) (dest : NodeId)
    (ctx : HostContext) (r : ℚ)
    (h : ctx.ipv4Bound = false ∨ ctx.interfaceIndex = none) :
    RouteInput st dest ctx r = (Decision.Drop, st) := by
  unfold RouteInput
  rcases h with h | h
  · simp [h]
  · by_cases hb : ctx.ipv4Bound = false
    · simp [hb]
    · simp [hb, h]

/-- Witness for C7: an unbound module drops the packet and keeps its state. -/
theorem claim_C7_witness :
    RouteInput freshState 1
      { ipv4Bound := false, interfaceIndex := some 0,
        isDestinationAddress := false, lcbAvailable := true,
        ucbAvailable := true } (1/2) = (Decision.Drop, freshState) :=
  claim_C7_config_error_drop freshState 1
    { ipv4Bound := false, interfaceIndex := some 0,
      isDestinationAddress := false, lcbAvailable := true,
      ucbAvailable := true } (1/2) (Or.inl rfl)

/-- C8: `SetDropProbability` rejects out-of-range inputs, leaving the whole
state unchanged, and stores in-range inputs, changing nothing but the drop
probability. -/
theorem claim_C8_setDropProbability (st : ModuleState) (p : ℚ) :
    ((p < 0 ∨ 1 < p) → SetDropProbability st p = st) ∧
    (0 ≤ p → p ≤ 1 →
      (SetDropProbability st p).dropProbability = p ∧
      (SetDropProbability st p).trustScores = st.trustScores ∧
      (SetDropProbability st p).blacklistedNodes = st.blacklistedNodes ∧
      (SetDropProbability st p).totalDroppedPackets =
        st.totalDroppedPackets ∧
      (SetDropProbability st p).totalForwardedPackets =
        st.totalForwardedPackets) := by
  constructor
  · intro h
    unfold SetDropProbability
    rw [if_pos h]
  · intro h0 h1
    have hno : ¬ (p < 0 ∨ 1 < p) := by
      rintro (hc | hc) <;> linarith
    unfold SetDropProbability
    rw [if_neg hno]
    exact ⟨rfl, rfl, rfl, rfl, rfl⟩

/-- Witness for C8: setting 0.5 on the fresh module stores 0.5. -/
theorem claim_C8_witness :
    (SetDropProbability freshState (1/2)).dropProbability = 1/2 :=
  ((claim_C8_setDropProbability freshState (1/2)).2 (by norm_num)
    (by norm_num)).1

theorem countHeaders_append (a b : List LogLine) :
    countHeaders (a ++ b) = countHeaders a + countHeaders b := by
  simp [countHeaders, List.filter_append]

theorem countHeaders_map_zero {α : Type} (f : α → LogLine)
    (hf : ∀ x, f x ≠ LogLine.header) (l : List α) :
    countHeaders (l.map f) = 0 := by
  induction l with
  | nil => rfl
  | cons hd tl ih =>
    simp only [List.map_cons, countHeaders, List.filter_cons] at ih ⊢
    simp [hf hd, ih]

theorem logTrustScores_headers (ps : TelemetryState) (c : ExportCall) :
    countHeaders (LogTrustScores ps c).log =
      countHeaders ps.log +
        (if c.openOk = true ∧ ps.headerWritten = false then 1 else 0) ∧
    (LogTrustScores ps c).headerWritten =
      (ps.headerWritten || c.openOk) := by
  unfold LogTrustScores
  cases ho : c.openOk with
  | false => simp
  | true =>
    have hs : countHeaders
        (List.map (fun e => LogLine.scoreRow c.time e.1 e.2) c.scores) = 0 :=
      countHeaders_map_zero _ (fun x => by simp) c.scores
    have hb : countHeaders
        (List.map (fun n => LogLine.blacklistRow c.time n) c.blacklisted) = 0 :=
      countHeaders_map_zero _ (fun x => by simp) c.blacklisted
    cases hw : ps.headerWritten with
    | false =>
      simp [countHeaders_append, hs, hb, countHeaders]
      rintro a x y hmem rfl
      simp
    | true =>
      simp [countHeaders_append, hs, hb, countHeaders]
      rintro a x y hmem rfl
      simp

theorem foldl_log_headers (calls : List ExportCall) (ps : TelemetryState) :
    countHeaders ((List.foldl LogTrustScores ps calls).log) =
      countHeaders ps.log +
        (if ps.headerWritten = false ∧ calls.any (fun c => c.openOk)
          then 1 else 0) ∧
    (List.foldl LogTrustScores ps calls).headerWritten =
      (ps.headerWritten || calls.any (fun c => c.openOk)) := by
  induction calls generalizing ps with
  | nil => simp
  | cons c rest ih =>
    obtain ⟨ihc, ihw⟩ := ih (LogTrustScores ps c)
    obtain ⟨hc, hw⟩ := logTrustScores_headers ps c
    constructor
    · rw [List.foldl_cons, ihc, hc, hw]
      cases hcO : c.openOk <;> cases hpw : ps.headerWritten <;>
        simp [hcO, hpw, List.any_cons]
    · rw [List.foldl_cons, ihw, hw]
      cases hcO : c.openOk <;> cases hpw : ps.headerWritten <;>
        simp [hcO, hpw, List.any_cons]

/-- C9: across any sequence of `LogTrustScores` invocations in one process,
the header line is in the log exactly once as soon as some invocation's
open succeeded (and never before); a failed open leaves the telemetry state
unchanged; an export after the header has been written appends only the
per-node score rows followed by the blacklist rows; and the first
successful export appends the header followed by those data rows. -/
theorem claim_C9_header_once :
    (∀ calls : List ExportCall,
      countHeaders ((List.foldl LogTrustScores telemetryInit calls).log) =
        (if calls.any (fun c => c.openOk) then 1 else 0)) ∧
    (∀ (ps : TelemetryState) (c : ExportCall), c.openOk = false →
      LogTrustScores ps c = ps) ∧
    (∀ (ps : TelemetryState) (c : ExportCall), c.openOk = true →
      ps.headerWritten = true →
      (LogTrustScores ps c).log = ps.log
        ++ List.map (fun e => LogLine.scoreRow c.time e.1 e.2) c.scores
        ++ List.map (fun n => LogLine.blacklistRow c.time n) c.blacklisted) ∧
    (∀ (ps : TelemetryState) (c : ExportCall), c.openOk = true →
      ps.headerWritten = false →
      (LogTrustScores ps c).log = (ps.log ++ [LogLine.header])
        ++ List.map (fun e => LogLine.scoreRow c.time e.1 e.2) c.scores
        ++ List.map (fun n => LogLine.blacklistRow c.time n) c.blacklisted) := by
  refine ⟨?_, ?_, ?_, ?_⟩
  · intro calls
    have h := (foldl_log_headers calls telemetryInit).1
    simpa [telemetryInit, countHeaders] using h
  · intro ps c h
    unfold LogTrustScores
    rw [if_pos h]
  · intro ps c ho hw
    unfold LogTrustScores
    simp [ho, hw]
  · intro ps c ho hw
    unfold LogTrustScores
    simp [ho, hw]

/-- Witness for C9: an export whose file open fails leaves the initial
telemetry state unchanged. -/
theorem claim_C9_witness :
    LogTrustScores telemetryInit
      { openOk := false, time := 0, scores := [], blacklisted := [] } =
      telemetryInit :=
  claim_C9_header_once.2.1 telemetryInit
    { openOk := false, time := 0, scores := [], blacklisted := [] } rfl

end BlackholeAodv
